import Mathlib

/-!
# Smart Librarian chatbot — verification of the spec against the code

Shallow embedding of the backend of the Smart-Librarian-Chatbot repository:

* `backend/database/book_summaries.py` — flat-file corpus store (parse, lookup,
  listing, append, reload),
* `backend/database/vector_store.py` — population and search of the vector index,
* `backend/services/filter_service.py` — moderation pre-filter,
* `backend/services/chat_service.py` — the request-orchestration pipeline.

Python strings are modelled as `List Char`; the string operations the code uses
(`split`, `strip`, `join`, `in`, f-string concatenation) are defined below with
Python's semantics.  The external managed services (moderation classifier,
embedding model, vector index, chat completions) are oracles packed in a
`Backend` record; a call that raises is an oracle returning `.error detail`.
Every function that performs external calls threads a `Counts` record so that
"no search / completion call happens" is a provable statement.  Floating-point
similarity scores are modelled as rationals.
-/

namespace SmartLibrarian

/-- Python strings are modelled as lists of characters. -/
abbrev Str := List Char

/-- A Lean string literal, as the character-list model. -/
def str (s : String) : Str := s.data

/-! ## Python string primitives -/

/-- `isPre sep s`: does `s` start with `sep`?  The matching step of Python's
substring scan. -/
def isPre : Str → Str → Bool
  | [], _ => true
  | _ :: _, [] => false
  | a :: as, b :: bs => if a = b then isPre as bs else false

/-- Prepend a character to the first segment of a split result. -/
def consHead (c : Char) : List Str → List Str
  | [] => [[c]]
  | x :: xs => (c :: x) :: xs

/-- Fuel-indexed worker for `pySplit`: scans left to right, cutting at each
(non-overlapping) occurrence of `sep`.  Any `fuel ≥ s.length` gives the same
result. -/
def splitFuel (sep : Str) : Nat → Str → List Str
  | _, [] => [[]]
  | 0, s => [s]
  | fuel + 1, c :: rest =>
    if isPre sep (c :: rest) then
      [] :: splitFuel sep fuel ((c :: rest).drop sep.length)
    else
      consHead c (splitFuel sep fuel rest)

/-- Model of Python `s.split(sep)` for non-empty `sep` (Python raises on an empty
separator; we return `[s]` in that degenerate case, which no call site uses). -/
def pySplit (sep s : Str) : List Str :=
  if sep.isEmpty then [s] else splitFuel sep s.length s

/-- Model of Python `sep.join(xs)`. -/
def pyJoin (sep : Str) : List Str → Str
  | [] => []
  | [x] => x
  | x :: xs => x ++ sep ++ pyJoin sep xs

/-- Model of Python `pat in s` for non-empty `pat`: the split produces more than
one segment exactly when `pat` occurs in `s`. -/
def containsSub (s pat : Str) : Bool := decide (1 < (pySplit pat s).length)

/-- The whitespace characters Python's `str.strip()` removes. -/
def isSpaceCh (c : Char) : Bool :=
  c == ' ' || c == '\t' || c == '\n' || c == '\r' || c == '\x0b' || c == '\x0c'

/-- Left half of Python `strip()`. -/
def ltrim (s : Str) : Str := s.dropWhile isSpaceCh

/-- Right half of Python `strip()`. -/
def rtrim (s : Str) : Str := (s.reverse.dropWhile isSpaceCh).reverse

/-- Model of Python `s.strip()`. -/
def pyStrip (s : Str) : Str := ltrim (rtrim s)

/-- Decimal rendering of a natural number. -/
def natToStr (n : Nat) : Str := (Nat.repr n).data

/-! ## Book corpus store (`backend/database/book_summaries.py`) -/

/-- The literal section-header token of the corpus format. -/
def headerTok : Str := str "## Title:"

/-- A one-character newline separator. -/
def nlStr : Str := str "\n"

/-- One book section, as in the parsing loop of `_load_books_from_file`:
`lines = book.strip().split('\n')`; the first line stripped is the title, the
remaining lines joined by newline and stripped are the summary.  The guard
`if lines:` can only fail on an empty split result, hence the `Option` (in fact
a split is never empty, see `pySplit_ne_nil`). -/
def parseSection (book : Str) : Option (Str × Str) :=
  match pySplit nlStr (pyStrip book) with
  | [] => none
  | t :: rest => some (pyStrip t, pyStrip (pyJoin nlStr rest))

/-- The parse of `_load_books_from_file`: `content.split('## Title:')[1:]`, one
entry per section. -/
def parseBooks (content : Str) : List (Str × Str) :=
  ((pySplit headerTok content).drop 1).filterMap parseSection

/-- Ordered association-list lookup: models Python `title in books` followed by
`books[title]`. -/
def assocLookup : List (Str × Str) → Str → Option Str
  | [], _ => none
  | (k, v) :: rest, t => if k = t then some v else assocLookup rest t

/-- Python dict assignment `d[k] = v`: replaces in place when the key exists
(keeping its position), appends otherwise. -/
def dictInsert (m : List (Str × Str)) (k v : Str) : List (Str × Str) :=
  if k ∈ m.map Prod.fst then m.map fun p => if p.1 = k then (k, v) else p
  else m ++ [(k, v)]

/-- The `_books_cache` dict built from the parsed entries, in insertion order. -/
def buildDict (entries : List (Str × Str)) : List (Str × Str) :=
  entries.foldl (fun d p => dictInsert d p.1 p.2) []

/-- Cache contents after `_load_books_from_file` reads a corpus text. -/
def loadBooksContent (content : Str) : List (Str × Str) := buildDict (parseBooks content)

/-- `_load_books_from_file` with its missing-file / read-error handling: when the
file does not exist or reading raises, the exception is swallowed and the cache
is left empty. -/
def loadBooksFromFile : Option Str → List (Str × Str)
  | none => []
  | some content => loadBooksContent content

/-- The miss message of `get_summary_by_title`: names up to five available titles
(the first five in insertion order) when the loaded set is non-empty. -/
def notFoundMessage (books : List (Str × Str)) (title : Str) : Str :=
  let available := (books.map Prod.fst).take 5
  let suggestion :=
    if available.isEmpty then []
    else str " Available books include: " ++ pyJoin (str ", ") available ++ str "..."
  str "Sorry, I don't have a detailed summary for '" ++ title ++
    str "'. Please check the title spelling or ask for a different book." ++ suggestion

/-- `get_summary_by_title` over a loaded cache. -/
def get_summary_by_title (books : List (Str × Str)) (title : Str) : Str :=
  match assocLookup books title with
  | some summary => summary
  | none => notFoundMessage books title

/-- `get_all_book_titles`: `list(books.keys())`. -/
def get_all_book_titles (books : List (Str × Str)) : List Str := books.map Prod.fst

/-- `get_books_count`. -/
def get_books_count (books : List (Str × Str)) : Nat := books.length

/-- The marker `add_book_to_file` tests with `"Main themes:" not in summary`. -/
def themesMarker : Str := str "Main themes:"

/-- The placeholder line `add_book_to_file` appends when the marker is absent. -/
def themesLine : Str := str "\nMain themes: [Add themes here]"

/-- `add_book_to_file`: appends `f"\n## Title: {title}\n{summary}\n"` to the
corpus text (injecting the placeholder themes line when the marker is absent).
The forced cache reload afterwards is `loadBooksContent` of the returned text. -/
def add_book_to_file (fileContent title summary : Str) : Str :=
  fileContent ++ str "\n## Title: " ++ title ++ nlStr ++
    (if containsSub summary themesMarker then summary else summary ++ themesLine) ++ nlStr

/-! ## External backends and call counting -/

/-- One row of a nearest-neighbor query answer from the vector index backend:
metadata title and summary, the stored document, and the reported cosine
distance. -/
structure QueryRow where
  title : Str
  summary : Str
  document : Str
  distance : Rat

/-- A model-issued tool invocation.  `arguments` is the outcome of
`json.loads(tool_call.function.arguments)`: a JSON object with string values is
an association list, a decode failure is `.error detail` (the raise). -/
structure ToolCall where
  id : Str
  name : Str
  arguments : Except Str (List (Str × Str))

/-- The assistant message of a chat-completion answer. -/
structure AssistantMsg where
  content : Option Str
  tool_calls : List ToolCall

/-- Conversation roles. -/
inductive Role
  | system
  | user
  | assistant
  | tool
deriving DecidableEq, Repr

/-- One conversation turn as assembled by the pipeline. -/
structure Message where
  role : Role
  content : Option Str
  tool_calls : List ToolCall := []
  tool_call_id : Option Str := none

/-- The external managed services, as oracles.  A call that raises is an oracle
answer `.error detail`.  `politeChoice` models the `random.choice` draw. -/
structure Backend where
  moderation : Str → Except Str Bool
  politeChoice : Nat
  embed : Str → Except Str (List Rat)
  queryIndex : List Rat → Nat → Except Str (List QueryRow)
  complete1 : List Message → Except Str AssistantMsg
  complete2 : List Message → Except Str (Option Str)

/-- How many calls each external service has received. -/
structure Counts where
  moderationCalls : Nat := 0
  embedCalls : Nat := 0
  queryCalls : Nat := 0
  completionCalls : Nat := 0
deriving DecidableEq, Repr

/-! ## Content filter (`backend/services/filter_service.py`) -/

/-- The fixed set of polite redirect strings of `ContentFilter`. -/
def polite_responses : List Str :=
  [str "I'm here to help you find great books! Please keep our conversation friendly and respectful. What kind of book are you looking for?",
   str "Let's keep our chat positive! I'd love to recommend some amazing books. What genres or themes interest you?",
   str "I'm designed to help with book recommendations in a friendly environment. What type of story are you in the mood for?",
   str "I prefer to keep our conversation respectful. How about we talk about books instead? What's your favorite genre?",
   str "Let's focus on finding you some great reading material! What kind of books do you usually enjoy?"]

/-- `contains_inappropriate_content`: one moderation call; on a raise, logs and
returns `False` (fail open). -/
def contains_inappropriate_content (b : Backend) (text : Str) (c : Counts) :
    Bool × Counts :=
  let c2 := { c with moderationCalls := c.moderationCalls + 1 }
  match b.moderation text with
  | .ok flagged => (flagged, c2)
  | .error _ => (false, c2)

/-- `get_polite_response`: `random.choice(self.polite_responses)`, the draw being
the backend's `politeChoice` reduced modulo the number of responses. -/
def get_polite_response (b : Backend) : Str :=
  polite_responses.getD (b.politeChoice % polite_responses.length) []

/-- `filter_message`: `(is_appropriate, response_if_inappropriate)`. -/
def filter_message (b : Backend) (message : Str) (c : Counts) :
    (Bool × Str) × Counts :=
  let r := contains_inappropriate_content b message c
  if r.1 then ((false, get_polite_response b), r.2) else ((true, []), r.2)

/-! ## Vector store (`backend/database/vector_store.py`) -/

/-- A parsed record of `load_book_summaries_for_vectorization`:
`content = f"Title: {title}\n{summary}"`. -/
structure BookRecord where
  title : Str
  summary : Str
  content : Str

/-- `load_book_summaries_for_vectorization`: same section parse as the corpus
store (the source repeats the identical loop), producing records for embedding;
a missing or unreadable file yields the empty list. -/
def load_book_summaries_for_vectorization (fileContent : Option Str) : List BookRecord :=
  match fileContent with
  | none => []
  | some content =>
    (parseBooks content).map fun p =>
      { title := p.1, summary := p.2,
        content := str "Title: " ++ p.1 ++ nlStr ++ p.2 }

/-- One stored document of the ChromaDB collection. -/
structure VectorEntry where
  id : Str
  document : Str
  title : Str
  summary : Str
  embedding : List Rat

/-- The embedding loop of `populate_database`: one embedding call per record, in
order; the first raise aborts with the error.  The second component counts the
embedding calls made (the raising call included). -/
def embedAll (embed : Str → Except Str (List Rat)) :
    List BookRecord → Except Str (List (List Rat)) × Nat
  | [] => (.ok [], 0)
  | r :: rs =>
    match embed r.content with
    | .error e => (.error e, 1)
    | .ok v =>
      match embedAll embed rs with
      | (.error e, n) => (.error e, n + 1)
      | (.ok vs, n) => (.ok (v :: vs), n + 1)

/-- `populate_database`: skip (no-op) when the collection already holds at least
one document; otherwise parse, embed every record (a raise propagates) and add
all documents with positional ids `book_{i}`.  Returns the new collection (or
the propagated error) and the number of embedding calls made. -/
def populate_database (embed : Str → Except Str (List Rat)) (fileContent : Option Str)
    (collection : List VectorEntry) : Except Str (List VectorEntry) × Nat :=
  if 0 < collection.length then (.ok collection, 0)
  else
    let summaries := load_book_summaries_for_vectorization fileContent
    if summaries.isEmpty then (.ok collection, 0)
    else
      match embedAll embed summaries with
      | (.error e, n) => (.error e, n)
      | (.ok vs, n) =>
        (.ok (collection ++ (List.zip summaries vs).enum.map fun e =>
          { id := str "book_" ++ natToStr e.1, document := e.2.1.content,
            title := e.2.1.title, summary := e.2.1.summary,
            embedding := e.2.2 }), n)

/-- A formatted search hit of `search_books`. -/
structure SearchHit where
  title : Str
  summary : Str
  document : Str
  similarity_score : Rat

/-- `_get_openai_embedding`: one embedding call; a raise propagates to the
caller.  (`search_books` below inlines this call together with its counter
bump.) -/
def getOpenaiEmbedding (b : Backend) (text : Str) (c : Counts) :
    Except Str (List Rat) × Counts :=
  (b.embed text, { c with embedCalls := c.embedCalls + 1 })

/-- `search_books`: embed the query (one embedding call), run the
nearest-neighbor query, format the rows with `similarity_score = 1 - distance`.
The whole body sits in a `try/except` that returns `[]` on any error (fail
open). -/
def search_books (b : Backend) (query : Str) (n_results : Nat) (c : Counts) :
    List SearchHit × Counts :=
  match b.embed query with
  | .error _ => ([], { c with embedCalls := c.embedCalls + 1 })
  | .ok qe =>
    match b.queryIndex qe n_results with
    | .error _ =>
      ([], { c with embedCalls := c.embedCalls + 1, queryCalls := c.queryCalls + 1 })
    | .ok rows =>
      (rows.map fun r =>
        { title := r.title, summary := r.summary, document := r.document,
          similarity_score := 1 - r.distance },
       { c with embedCalls := c.embedCalls + 1, queryCalls := c.queryCalls + 1 })

/-! ## Chat pipeline (`backend/services/chat_service.py`) -/

/-- The fixed system instruction of the librarian persona (whitespace of the
indented triple-quoted source literal transcribed). -/
def system_prompt : Str :=
  str "\n        You are a smart AI librarian assistant that helps users find books based on their interests. \n\n        Your capabilities:\n        1. You have access to a database of book summaries through RAG (semantic search)\n        2. You can get detailed summaries of specific books using the get_summary_by_title function\n        3. You should be conversational, helpful, and enthusiastic about books\n\n        Instructions:\n        - When a user asks for book recommendations, search the database using the provided context\n        - Always recommend specific books from your database, not general suggestions\n        - After recommending a book, automatically call get_summary_by_title to provide detailed information\n        - Be conversational and ask follow-up questions to help users find their perfect book\n        - If a user asks about a specific book title, use get_summary_by_title to provide detailed information\n        - Keep responses engaging and personal, like a friendly librarian would\n\n        Available books in your database include classics like 1984, The Hobbit, Pride and Prejudice, \n        Harry Potter, The Great Gatsby, and many more.\n        "

/-- Rendering of the f-string field `{score:.2f}` (fixed two decimals over the
rational model of the score; rounding approximated as round-to-nearest). -/
def formatScore2 (q : Rat) : Str :=
  let scaled : Int := round (q * 100)
  let sign : Str := if scaled < 0 then str "-" else []
  let n := scaled.natAbs
  sign ++ natToStr (n / 100) ++ str "." ++
    (if n % 100 < 10 then str "0" else []) ++ natToStr (n % 100)

/-- One hit's block inside the context of `_search_books_for_context`. -/
def formatHit (r : SearchHit) : Str :=
  str "**" ++ r.title ++ str "**\n" ++ str "Summary: " ++ r.summary ++ nlStr ++
    str "Relevance Score: " ++ formatScore2 r.similarity_score ++ str "\n\n"

/-- `_search_books_for_context`: search, then format the hits into the
human-readable context block (or the fixed no-hits sentence). -/
def searchBooksForContext (b : Backend) (query : Str) (n_results : Nat) (c : Counts) :
    Str × Counts :=
  let s := search_books b query n_results c
  if s.1.isEmpty then (str "No relevant books found in the database.", s.2)
  else (s.1.foldl (fun ctx r => ctx ++ formatHit r)
          (str "Relevant books from the database:\n\n"), s.2)

/-- The user turn content: `f"\n User query: {user_message}\n\n {search_context}…"`
of the source, with the retrieved context block and the closing instruction. -/
def userWithContext (user_message search_context : Str) : Str :=
  str "\n            User query: " ++ user_message ++ str "\n\n            " ++
    search_context ++
    str "\n\n            Based on the relevant books above, please provide a helpful response and recommendation.\n            "

/-- Python dict `arguments.get(k, default)`. -/
def argsGetD (args : List (Str × Str)) (k dflt : Str) : Str :=
  match assocLookup args k with
  | some v => v
  | none => dflt

/-- `_execute_function_call`: dispatch by name; only `get_summary_by_title` is
recognized, any other name produces the literal `"Unknown function: {name}"`. -/
def executeFunctionCall (books : List (Str × Str)) (function_name : Str)
    (arguments : List (Str × Str)) : Str :=
  if function_name = str "get_summary_by_title" then
    get_summary_by_title books (argsGetD arguments (str "title") [])
  else
    str "Unknown function: " ++ function_name

/-- One recorded tool call of the response's provenance. -/
structure ToolCallRecord where
  function : Str
  arguments : List (Str × Str)
  result : Str

/-- The decoded arguments of a tool call whose decode succeeded. -/
def okArgs (tc : ToolCall) : List (Str × Str) :=
  match tc.arguments with
  | .ok args => args
  | .error _ => []

/-- The tool-call loop of `chat`: decode each invocation's arguments (a decode
failure raises, which aborts the request), execute it, and record both the
`ToolCallRecord` and the `tool`-role turn keyed to the invocation's id. -/
def processToolCalls (books : List (Str × Str)) :
    List ToolCall → Except Str (List ToolCallRecord × List Message)
  | [] => .ok ([], [])
  | tc :: rest =>
    match tc.arguments with
    | .error e => .error e
    | .ok function_args =>
      let function_result := executeFunctionCall books tc.name function_args
      match processToolCalls books rest with
      | .error e => .error e
      | .ok p =>
        .ok ({ function := tc.name, arguments := function_args,
               result := function_result } :: p.1,
             { role := Role.tool, content := some function_result,
               tool_call_id := some tc.id } :: p.2)

/-- `conversation_history[-6:]`: the last (at most) six turns. -/
def lastSix (history : List Message) : List Message :=
  history.drop (history.length - 6)

/-- The chat response record (`success`, `message`, `filtered`,
`function_calls`, `search_results` as title/similarity pairs, optional
`error`). -/
structure ChatResponse where
  success : Bool
  message : Option Str
  filtered : Bool
  function_calls : List ToolCallRecord
  search_results : List (Str × Rat)
  error : Option Str := none

/-- The body of `chat` inside its top-level `try`: filter, retrieve, prompt,
first completion, optional tool round plus second completion.  `.error e` is an
exception reaching the top of the pipeline. -/
def chatBody (b : Backend) (books : List (Str × Str)) (user_message : Str)
    (conversation_history : List Message) (c : Counts) :
    Except Str ChatResponse × Counts :=
  let fm := filter_message b user_message c
  if fm.1.1 = false then
    (.ok { success := true, message := some fm.1.2, filtered := true,
           function_calls := [], search_results := [] }, fm.2)
  else
    let sc := searchBooksForContext b user_message 3 fm.2
    let sr := search_books b user_message 3 sc.2
    let messages : List Message :=
      { role := Role.system, content := some system_prompt } ::
        (lastSix conversation_history ++
          [{ role := Role.user,
             content := some (userWithContext user_message sc.1) }])
    let c1 := { sr.2 with completionCalls := sr.2.completionCalls + 1 }
    match b.complete1 messages with
    | .error e => (.error e, c1)
    | .ok ai_message =>
      if ai_message.tool_calls.isEmpty then
        (.ok { success := true, message := ai_message.content, filtered := false,
               function_calls := [],
               search_results := sr.1.map fun r => (r.title, r.similarity_score) }, c1)
      else
        let messages2 := messages ++
          [{ role := Role.assistant, content := ai_message.content,
             tool_calls := ai_message.tool_calls }]
        match processToolCalls books ai_message.tool_calls with
        | .error e => (.error e, c1)
        | .ok p =>
          let messages3 := messages2 ++ p.2
          let c2 := { c1 with completionCalls := c1.completionCalls + 1 }
          match b.complete2 messages3 with
          | .error e => (.error e, c2)
          | .ok final_message =>
            (.ok { success := true, message := final_message, filtered := false,
                   function_calls := p.1,
                   search_results := sr.1.map fun r => (r.title, r.similarity_score) }, c2)

/-- The converted failure payload of the top-level `except` branch of `chat`. -/
def errorResponse (e : Str) : ChatResponse :=
  { success := false,
    message := some (str "I apologize, but I encountered an error: " ++ e ++
      str ". Please try again."),
    filtered := false, function_calls := [], search_results := [],
    error := some e }

/-- `SmartLibrarianChatService.chat`: the pipeline body under the top-level
`try/except`; every exception that reaches the top is converted into the
structured failure payload, never propagated. -/
def chat (b : Backend) (books : List (Str × Str)) (user_message : Str)
    (conversation_history : List Message) : ChatResponse × Counts :=
  match chatBody b books user_message conversation_history {} with
  | (.ok r, c) => (r, c)
  | (.error e, c) => (errorResponse e, c)

/-- The formatted hits of `search_books`, independent of call counting: the
value component of `search_books` for any incoming counter state. -/
def searchHits (b : Backend) (query : Str) (n_results : Nat) : List SearchHit :=
  match b.embed query with
  | .error _ => []
  | .ok qe =>
    match b.queryIndex qe n_results with
    | .error _ => []
    | .ok rows =>
      rows.map fun r =>
        { title := r.title, summary := r.summary, document := r.document,
          similarity_score := 1 - r.distance }

/-- A concrete backend for evaluating the pipeline at specific inputs:
moderation verdict and first-completion answer are the two parameters, the
embedding and index backends answer trivially, the second completion answers a
fixed string. -/
def mkBackend (mod : Str → Except Str Bool)
    (c1 : List Message → Except Str AssistantMsg) : Backend where
  moderation := mod
  politeChoice := 0
  embed := fun _ => .ok [1]
  queryIndex := fun _ _ => .ok []
  complete1 := c1
  complete2 := fun _ => .ok (some (str "done"))

/-- The document that populating from the one-book corpus `## Title: A\nsa`
under the trivial embedder stores. -/
def populatedEntry : VectorEntry :=
  { id := str "book_0", document := str "Title: A\nsa", title := str "A",
    summary := str "sa", embedding := [1] }

/-! ## Lemmas: the substring scan `isPre` -/

theorem isPre_append_self (sep t : Str) : isPre sep (sep ++ t) = true := by
  induction sep with
  | nil => rfl
  | cons a as ih => simp [isPre, ih]

theorem length_le_of_isPre {sep s : Str} (h : isPre sep s = true) :
    sep.length ≤ s.length := by
  induction sep generalizing s with
  | nil => simp
  | cons a as ih =>
    cases s with
    | nil => simp [isPre] at h
    | cons b bs =>
      simp only [isPre] at h
      split at h
      · simpa using ih h
      · simp at h

theorem isPre_append_right {sep x : Str} (y : Str) (h : isPre sep x = true) :
    isPre sep (x ++ y) = true := by
  induction sep generalizing x with
  | nil => rfl
  | cons a as ih =>
    cases x with
    | nil => simp [isPre] at h
    | cons b bs =>
      by_cases hab : a = b
      · simp only [List.cons_append, isPre, hab, if_true] at h ⊢
        exact ih h
      · simp [isPre, hab] at h

theorem isPre_of_isPre_append {sep x y : Str} (h : isPre sep (x ++ y) = true)
    (hl : sep.length ≤ x.length) : isPre sep x = true := by
  induction sep generalizing x with
  | nil => rfl
  | cons a as ih =>
    cases x with
    | nil => simp at hl
    | cons b bs =>
      by_cases hab : a = b
      · simp only [List.cons_append, isPre, hab, if_true] at h ⊢
        simp only [List.length_cons] at hl
        exact ih h (by omega)
      · simp [isPre, hab] at h

theorem mem_of_isPre_straddle {sep x y : Str} {c : Char}
    (h : isPre sep (x ++ c :: y) = true) (hl : x.length < sep.length) : c ∈ sep := by
  induction x generalizing sep with
  | nil =>
    cases sep with
    | nil => simp at hl
    | cons a as =>
      simp only [List.nil_append, isPre] at h
      split at h
      · subst_vars; exact List.mem_cons_self _ _
      · simp at h
  | cons b bs ih =>
    cases sep with
    | nil => simp at hl
    | cons a as =>
      simp only [List.cons_append, isPre] at h
      split at h
      · simp only [List.length_cons] at hl
        exact List.mem_cons_of_mem _ (ih h (by omega))
      · simp at h

theorem isPre_of_head_ne {a b : Char} {as bs : Str} (h : a ≠ b) :
    isPre (a :: as) (b :: bs) = false := by
  simp [isPre, h]

/-! ## Lemmas: `pySplit` -/

theorem consHead_ne_nil (c : Char) (l : List Str) : consHead c l ≠ [] := by
  cases l <;> simp [consHead]

theorem splitFuel_ne_nil (sep : Str) (fuel : Nat) (s : Str) :
    splitFuel sep fuel s ≠ [] := by
  induction fuel generalizing s with
  | zero => cases s <;> simp [splitFuel]
  | succ n ih =>
    cases s with
    | nil => simp [splitFuel]
    | cons c rest =>
      simp only [splitFuel]
      split
      · simp
      · exact consHead_ne_nil _ _

theorem splitFuel_fuel_irrel (sep : Str) (hsep : sep ≠ []) :
    ∀ (fuel1 fuel2 : Nat) (s : Str), s.length ≤ fuel1 → s.length ≤ fuel2 →
      splitFuel sep fuel1 s = splitFuel sep fuel2 s := by
  intro fuel1
  induction fuel1 with
  | zero =>
    intro fuel2 s h1 _
    have : s = [] := by
      cases s with
      | nil => rfl
      | cons c r => simp at h1
    subst this
    cases fuel2 <;> rfl
  | succ n ih =>
    intro fuel2 s h1 h2
    cases s with
    | nil => cases fuel2 <;> rfl
    | cons c rest =>
      cases fuel2 with
      | zero => simp at h2
      | succ m =>
        have hsl : 1 ≤ sep.length := by
          cases sep with
          | nil => exact absurd rfl hsep
          | cons a as => simp
        simp only [splitFuel]
        split
        · have hdrop : ((c :: rest).drop sep.length).length ≤ n := by
            simp only [List.length_drop, List.length_cons]
            simp only [List.length_cons] at h1
            omega
          have hdrop2 : ((c :: rest).drop sep.length).length ≤ m := by
            simp only [List.length_drop, List.length_cons]
            simp only [List.length_cons] at h2
            omega
          rw [ih m _ hdrop hdrop2]
        · have hr : rest.length ≤ n := by simp only [List.length_cons] at h1; omega
          have hr2 : rest.length ≤ m := by simp only [List.length_cons] at h2; omega
          rw [ih m _ hr hr2]

theorem pySplit_nil (sep : Str) : pySplit sep [] = [[]] := by
  cases sep <;> simp [pySplit, splitFuel, List.isEmpty]

theorem pySplit_eq_splitFuel {sep : Str} (hsep : sep ≠ []) (fuel : Nat) (s : Str)
    (h : s.length ≤ fuel) : pySplit sep s = splitFuel sep fuel s := by
  have : sep.isEmpty = false := by cases sep with
    | nil => exact absurd rfl hsep
    | cons a as => rfl
  simp only [pySplit, this, Bool.false_eq_true, if_false]
  exact splitFuel_fuel_irrel sep hsep s.length fuel s le_rfl h

theorem pySplit_match {sep s : Str} (hsep : sep ≠ []) (h : isPre sep s = true) :
    pySplit sep s = [] :: pySplit sep (s.drop sep.length) := by
  have hsl : 1 ≤ sep.length := by
    cases sep with
    | nil => exact absurd rfl hsep
    | cons a as => simp
  cases s with
  | nil =>
    exfalso
    cases sep with
    | nil => exact hsep rfl
    | cons a as => simp [isPre] at h
  | cons c rest =>
    rw [pySplit_eq_splitFuel hsep (rest.length + 1) _ (by simp)]
    simp only [splitFuel, h, if_true]
    congr 1
    refine (pySplit_eq_splitFuel hsep rest.length _ ?_).symm
    simp only [List.length_drop, List.length_cons]
    omega

theorem pySplit_no_match {sep : Str} {c : Char} {rest : Str} (hsep : sep ≠ [])
    (h : isPre sep (c :: rest) = false) :
    pySplit sep (c :: rest) = consHead c (pySplit sep rest) := by
  rw [pySplit_eq_splitFuel hsep (rest.length + 1) _ (by simp)]
  simp only [splitFuel, h, Bool.false_eq_true, if_false]
  congr 1
  exact (pySplit_eq_splitFuel hsep rest.length _ le_rfl).symm

theorem pySplit_ne_nil (sep s : Str) : pySplit sep s ≠ [] := by
  by_cases h : sep.isEmpty
  · simp [pySplit, h]
  · simp only [pySplit, h, Bool.false_eq_true, if_false]
    exact splitFuel_ne_nil sep s.length s

theorem eq_of_pySplit_single {sep s x : Str} (h : pySplit sep s = [x]) : x = s := by
  by_cases hs : sep.isEmpty
  · simp [pySplit, hs] at h
    exact h.symm
  · have hsep : sep ≠ [] := by cases sep with
      | nil => simp [List.isEmpty] at hs
      | cons a as => simp
    have key : ∀ (fuel : Nat) (t y : Str), t.length ≤ fuel →
        splitFuel sep fuel t = [y] → y = t := by
      intro fuel
      induction fuel with
      | zero =>
        intro t y h1 h2
        cases t with
        | nil => simpa [splitFuel] using h2.symm
        | cons c r => simp at h1
      | succ n ih =>
        intro t y h1 h2
        cases t with
        | nil => simpa [splitFuel] using h2.symm
        | cons c rest =>
          simp only [splitFuel] at h2
          split at h2
          · rcases List.cons_eq_cons.mp h2 with ⟨_, htl⟩
            exact absurd htl (splitFuel_ne_nil _ _ _)
          · rcases hcs : splitFuel sep n rest with _ | ⟨z, zs⟩
            · exact absurd hcs (splitFuel_ne_nil _ _ _)
            · rw [hcs] at h2
              simp only [consHead] at h2
              rcases List.cons_eq_cons.mp h2 with ⟨hy, htl⟩
              have hz : z = rest :=
                ih rest z (by simp only [List.length_cons] at h1; omega)
                  (by rw [hcs, htl])
              rw [← hy, hz]
    simp only [pySplit, hs, Bool.false_eq_true, if_false] at h
    exact key s.length s x le_rfl h

/-- Splice two split results at the junction: the last segment of the first part
continues into the first segment of the second part. -/
def glue : List Str → List Str → List Str
  | [], ys => ys
  | [x], [] => [x]
  | [x], y :: ys => (x ++ y) :: ys
  | x :: xs, ys => x :: glue xs ys

theorem glue_cons_of_ne_nil {x : Str} {xs : List Str} (ys : List Str)
    (h : xs ≠ []) : glue (x :: xs) ys = x :: glue xs ys := by
  cases xs with
  | nil => exact absurd rfl h
  | cons z zs => cases ys <;> rfl

theorem glue_consHead {c : Char} {L ys : List Str} (hL : L ≠ []) :
    glue (consHead c L) ys = consHead c (glue L ys) := by
  cases L with
  | nil => exact absurd rfl hL
  | cons x xs =>
    cases xs with
    | nil =>
      cases ys with
      | nil => rfl
      | cons y ys' => simp [consHead, glue]
    | cons z zs =>
      cases ys with
      | nil => simp [consHead, glue]
      | cons y ys' => simp [consHead, glue]

/-- A split distributes over an append whose right part starts with a character
that the separator does not contain: no occurrence of the separator can straddle
the junction, so the two halves are split independently and spliced. -/
theorem pySplit_append {sep : Str} {c : Char} (hsep : sep ≠ []) (hc : c ∉ sep) :
    ∀ (a bb : Str), pySplit sep (a ++ c :: bb) = glue (pySplit sep a) (pySplit sep (c :: bb)) := by
  have main : ∀ (n : Nat) (a bb : Str), a.length ≤ n →
      pySplit sep (a ++ c :: bb) = glue (pySplit sep a) (pySplit sep (c :: bb)) := by
    intro n
    induction n with
    | zero =>
      intro a bb ha
      have : a = [] := by cases a with
        | nil => rfl
        | cons x xs => simp at ha
      subst this
      rcases hys : pySplit sep (c :: bb) with _ | ⟨y, ys⟩
      · exact absurd hys (pySplit_ne_nil _ _)
      · simp only [List.nil_append, hys, pySplit_nil, glue]
    | succ n ih =>
      intro a bb ha
      cases a with
      | nil =>
        rcases hys : pySplit sep (c :: bb) with _ | ⟨y, ys⟩
        · exact absurd hys (pySplit_ne_nil _ _)
        · simp only [List.nil_append, hys, pySplit_nil, glue]
      | cons ch a2 =>
        have hsl : 1 ≤ sep.length := by
          cases sep with
          | nil => exact absurd rfl hsep
          | cons x xs => simp
        by_cases hm : isPre sep (ch :: a2 ++ c :: bb) = true
        · by_cases hlen : sep.length ≤ (ch :: a2).length
          · have hma : isPre sep (ch :: a2) = true :=
              isPre_of_isPre_append (by simpa using hm) hlen
            rw [show ((ch :: a2) ++ c :: bb) = (ch :: a2) ++ c :: bb from rfl] at hm
            rw [pySplit_match hsep hm, pySplit_match hsep hma]
            rw [List.drop_append_of_le_length hlen]
            have hrec := ih ((ch :: a2).drop sep.length) bb
              (by simp only [List.length_drop, List.length_cons]
                  simp only [List.length_cons] at ha
                  omega)
            rw [hrec]
            rw [glue_cons_of_ne_nil _ (pySplit_ne_nil _ _)]
          · exfalso
            have : (ch :: a2).length < sep.length := by omega
            exact hc (mem_of_isPre_straddle (by simpa using hm) this)
        · have hma : isPre sep (ch :: a2) = false := by
            by_contra hx
            have : isPre sep (ch :: a2) = true := by
              cases h2 : isPre sep (ch :: a2)
              · exact absurd h2 hx
              · rfl
            exact hm (by simpa using isPre_append_right (c :: bb) this)
          have hm2 : isPre sep (ch :: (a2 ++ c :: bb)) = false := by
            cases h2 : isPre sep (ch :: (a2 ++ c :: bb))
            · rfl
            · exact absurd (by simpa using h2) hm
          rw [show ((ch :: a2) ++ c :: bb) = ch :: (a2 ++ c :: bb) from rfl]
          rw [pySplit_no_match hsep hm2, pySplit_no_match hsep hma]
          rw [ih a2 bb (by simp only [List.length_cons] at ha; omega)]
          exact (glue_consHead (pySplit_ne_nil _ _)).symm
  intro a bb
  exact main a.length a bb le_rfl

theorem pySplit_cons_not_mem {sep : Str} {c : Char} (hsep : sep ≠ []) (hc : c ∉ sep)
    (bb : Str) : pySplit sep (c :: bb) = consHead c (pySplit sep bb) := by
  apply pySplit_no_match hsep
  cases sep with
  | nil => exact absurd rfl hsep
  | cons a as =>
    have : a ≠ c := fun h => hc (by rw [← h]; exact List.mem_cons_self _ _)
    exact isPre_of_head_ne this

/-! ## Lemmas: `containsSub` -/

theorem pySplit_of_not_containsSub {s pat : Str} (h : containsSub s pat = false) :
    pySplit pat s = [s] := by
  simp only [containsSub, decide_eq_false_iff_not, not_lt] at h
  rcases hx : pySplit pat s with _ | ⟨y, ys⟩
  · exact absurd hx (pySplit_ne_nil _ _)
  · cases ys with
    | nil => rw [eq_of_pySplit_single hx]
    | cons z zs => rw [hx] at h; simp at h

theorem containsSub_of_isPre {s pat : Str} (hpat : pat ≠ [])
    (h : isPre pat s = true) : containsSub s pat = true := by
  simp only [containsSub, decide_eq_true_eq]
  rw [pySplit_match hpat h]
  have := pySplit_ne_nil pat (s.drop pat.length)
  cases hx : pySplit pat (s.drop pat.length) with
  | nil => exact absurd hx this
  | cons y ys => simp

theorem containsSub_append_self (pat t : Str) (hpat : pat ≠ []) :
    containsSub (pat ++ t) pat = true :=
  containsSub_of_isPre hpat (isPre_append_self pat t)

theorem not_containsSub_nil (pat : Str) : containsSub [] pat = false := by
  simp [containsSub, pySplit_nil]

theorem not_containsSub_append {A B pat : Str} {c : Char} (hpat : pat ≠ [])
    (hc : c ∉ pat) (hA : containsSub A pat = false) (hB : containsSub B pat = false) :
    containsSub (A ++ c :: B) pat = false := by
  simp only [containsSub, decide_eq_false_iff_not, not_lt]
  rw [pySplit_append hpat hc, pySplit_of_not_containsSub hA,
    pySplit_cons_not_mem hpat hc, pySplit_of_not_containsSub hB]
  simp [consHead, glue]

theorem not_containsSub_cons {A pat : Str} {c : Char} (hpat : pat ≠ [])
    (hno : isPre pat (c :: A) = false) (hA : containsSub A pat = false) :
    containsSub (c :: A) pat = false := by
  simp only [containsSub, decide_eq_false_iff_not, not_lt]
  rw [pySplit_no_match hpat hno, pySplit_of_not_containsSub hA]
  simp [consHead]

/-! ## Lemmas: single-character splits and joins -/

theorem pySplit_single_char_cut {c : Char} {A : Str} (B : Str) (hA : c ∉ A) :
    pySplit [c] (A ++ c :: B) = A :: pySplit [c] B := by
  induction A with
  | nil =>
    rw [show ([] ++ c :: B : Str) = c :: B from rfl]
    rw [pySplit_match (by simp) (by simp [isPre])]
    rfl
  | cons a A2 ih =>
    have ha : a ≠ c := fun h => hA (by rw [h]; exact List.mem_cons_self _ _)
    rw [show ((a :: A2) ++ c :: B : Str) = a :: (A2 ++ c :: B) from rfl]
    rw [pySplit_no_match (by simp) (isPre_of_head_ne fun h => ha h.symm)]
    rw [ih (fun h => hA (List.mem_cons_of_mem _ h))]
    rfl

theorem pySplit_single_char_none {c : Char} {A : Str} (hA : c ∉ A) :
    pySplit [c] A = [A] := by
  induction A with
  | nil => exact pySplit_nil _
  | cons a A2 ih =>
    have ha : a ≠ c := fun h => hA (by rw [h]; exact List.mem_cons_self _ _)
    rw [pySplit_no_match (by simp) (isPre_of_head_ne fun h => ha h.symm)]
    rw [ih (fun h => hA (List.mem_cons_of_mem _ h))]
    rfl

theorem pyJoin_consHead {sep : Str} {c : Char} {L : List Str} (hL : L ≠ []) :
    pyJoin sep (consHead c L) = c :: pyJoin sep L := by
  cases L with
  | nil => exact absurd rfl hL
  | cons x xs =>
    cases xs with
    | nil => rfl
    | cons y ys => simp [consHead, pyJoin]

theorem pyJoin_pySplit_single_char (c : Char) (s : Str) :
    pyJoin [c] (pySplit [c] s) = s := by
  have main : ∀ (n : Nat) (t : Str), t.length ≤ n → pyJoin [c] (pySplit [c] t) = t := by
    intro n
    induction n with
    | zero =>
      intro t ht
      have : t = [] := by cases t with
        | nil => rfl
        | cons x xs => simp at ht
      subst this
      simp [pySplit_nil, pyJoin]
    | succ n ih =>
      intro t ht
      cases t with
      | nil => simp [pySplit_nil, pyJoin]
      | cons a rest =>
        by_cases hac : a = c
        · subst hac
          rw [pySplit_match (by simp) (by simp [isPre])]
          show pyJoin [a] ([] :: pySplit [a] rest) = a :: rest
          rcases hx : pySplit [a] rest with _ | ⟨y, ys⟩
          · exact absurd hx (pySplit_ne_nil _ _)
          · calc pyJoin [a] ([] :: y :: ys) = a :: pyJoin [a] (y :: ys) := by
                  simp [pyJoin]
              _ = a :: pyJoin [a] (pySplit [a] rest) := by rw [hx]
              _ = a :: rest := by
                  rw [ih rest (by simp only [List.length_cons] at ht; omega)]
        · rw [pySplit_no_match (by simp) (isPre_of_head_ne fun h => hac h.symm)]
          rw [pyJoin_consHead (pySplit_ne_nil _ _)]
          rw [ih rest (by simp only [List.length_cons] at ht; omega)]
  exact main s.length s le_rfl

/-! ## Lemmas: `strip` -/

theorem dropWhile_len_le (p : Char → Bool) (l : Str) :
    (l.dropWhile p).length ≤ l.length := by
  induction l with
  | nil => simp
  | cons a l ih =>
    by_cases h : p a = true
    · simp only [List.dropWhile_cons, h, if_true, List.length_cons]
      omega
    · simp [List.dropWhile_cons, h]

theorem rtrim_append_space {x : Str} {c : Char} (hc : isSpaceCh c = true) :
    rtrim (x ++ [c]) = rtrim x := by
  simp [rtrim, List.reverse_append, List.dropWhile_cons, hc]

theorem pyStrip_append_space {x : Str} {c : Char} (hc : isSpaceCh c = true) :
    pyStrip (x ++ [c]) = pyStrip x := by
  simp [pyStrip, rtrim_append_space hc]

theorem head_not_space_of_ltrim_fix {c : Char} {x : Str}
    (h : ltrim (c :: x) = c :: x) : isSpaceCh c = false := by
  cases hc : isSpaceCh c
  · rfl
  · exfalso
    have h2 : ltrim (c :: x) = ltrim x := by simp [ltrim, List.dropWhile_cons, hc]
    have h3 : (ltrim x).length ≤ x.length := dropWhile_len_le _ _
    rw [h] at h2
    have : (c :: x).length = (ltrim x).length := by rw [h2]
    simp only [List.length_cons] at this
    omega

theorem ltrim_append_of_fix {x : Str} (y : Str) (hx : x ≠ [])
    (h : ltrim x = x) : ltrim (x ++ y) = x ++ y := by
  cases x with
  | nil => exact absurd rfl hx
  | cons c x2 =>
    have hc := head_not_space_of_ltrim_fix h
    simp [ltrim, List.dropWhile_cons, hc]

theorem rtrim_eq_iff_reverse {s : Str} :
    rtrim s = s ↔ s.reverse.dropWhile isSpaceCh = s.reverse := by
  constructor
  · intro h
    conv_rhs => rw [← h]
    simp [rtrim]
  · intro h
    simp [rtrim, h]

theorem rtrim_append_of_fix {s : Str} (a : Str) (hs : s ≠ [])
    (h : rtrim s = s) : rtrim (a ++ s) = a ++ s := by
  rw [rtrim_eq_iff_reverse] at h ⊢
  rw [List.reverse_append]
  cases hr : s.reverse with
  | nil =>
    exfalso
    have := congrArg List.reverse hr
    simp at this
    exact hs this
  | cons c y =>
    rw [hr] at h
    have hc : isSpaceCh c = false := head_not_space_of_ltrim_fix h
    simp only [List.cons_append, List.dropWhile_cons, hc, Bool.false_eq_true, if_false]

theorem ltrim_cons_space {c : Char} {x : Str} (hc : isSpaceCh c = true) :
    ltrim (c :: x) = ltrim x := by
  simp [ltrim, List.dropWhile_cons, hc]

theorem pyStrip_fix {s : Str} (h1 : ltrim s = s) (h2 : rtrim s = s) :
    pyStrip s = s := by
  simp [pyStrip, h1, h2]

/-! ## Lemmas: the cache dict -/

theorem assocLookup_map_update {m : List (Str × Str)} {k : Str} (v : Str)
    (hk : k ∈ m.map Prod.fst) :
    assocLookup (m.map fun p => if p.1 = k then (k, v) else p) k = some v := by
  induction m with
  | nil => simp at hk
  | cons p m ih =>
    obtain ⟨k1, v1⟩ := p
    by_cases hp : k1 = k
    · subst hp
      rw [List.map_cons]
      have hhead : (if (k1, v1).1 = k1 then (k1, v) else (k1, v1)) = (k1, v) := by simp
      rw [hhead]
      show (if k1 = k1 then some v else _) = some v
      rw [if_pos rfl]
    · have hk2 : k ∈ m.map Prod.fst := by
        simp only [List.map_cons, List.mem_cons] at hk
        rcases hk with h | h
        · exact absurd h.symm hp
        · exact h
      rw [List.map_cons]
      have hhead : (if (k1, v1).1 = k then (k, v) else (k1, v1)) = (k1, v1) := by
        simp [hp]
      rw [hhead]
      show (if k1 = k then some v1 else _) = some v
      rw [if_neg hp]
      exact ih hk2

theorem assocLookup_append_not_mem {m : List (Str × Str)} {k : Str}
    (hk : k ∉ m.map Prod.fst) (tail : List (Str × Str)) :
    assocLookup (m ++ tail) k = assocLookup tail k := by
  induction m with
  | nil => rfl
  | cons p m ih =>
    obtain ⟨k1, v1⟩ := p
    have h1 : k1 ≠ k := by
      intro h
      exact hk (by simp [h])
    have h2 : k ∉ m.map Prod.fst := fun h => hk (by simp [h])
    simpa [assocLookup, h1] using ih h2

theorem dictInsert_not_mem {m : List (Str × Str)} {k : Str} (v : Str)
    (hk : k ∉ m.map Prod.fst) : dictInsert m k v = m ++ [(k, v)] := by
  simp [dictInsert, hk]

theorem assocLookup_dictInsert (m : List (Str × Str)) (k v : Str) :
    assocLookup (dictInsert m k v) k = some v := by
  by_cases hk : k ∈ m.map Prod.fst
  · simp only [dictInsert, hk, if_true]
    exact assocLookup_map_update v hk
  · rw [dictInsert_not_mem v hk, assocLookup_append_not_mem hk]
    simp [assocLookup]

theorem buildDict_aux (l m : List (Str × Str))
    (h : ((m ++ l).map Prod.fst).Nodup) :
    l.foldl (fun d p => dictInsert d p.1 p.2) m = m ++ l := by
  induction l generalizing m with
  | nil => simp
  | cons p l ih =>
    have hk : p.1 ∉ m.map Prod.fst := by
      intro hmem
      rcases List.nodup_append.mp (by simpa [List.map_append] using h) with ⟨-, -, hdisj⟩
      exact hdisj hmem (by simp)
    have hstep : dictInsert m p.1 p.2 = m ++ [p] := by
      rw [dictInsert_not_mem _ hk]
    simp only [List.foldl_cons, hstep]
    have h2 : (((m ++ [p]) ++ l).map Prod.fst).Nodup := by
      simpa [List.append_assoc] using h
    rw [ih (m ++ [p]) h2]
    simp

theorem buildDict_of_nodup {l : List (Str × Str)}
    (h : (l.map Prod.fst).Nodup) : buildDict l = l := by
  simpa using buildDict_aux l [] (by simpa using h)

theorem assocLookup_of_nodup {l : List (Str × Str)}
    (h : (l.map Prod.fst).Nodup) {p : Str × Str} (hp : p ∈ l) :
    assocLookup l p.1 = some p.2 := by
  induction l with
  | nil => simp at hp
  | cons q l ih =>
    obtain ⟨k1, v1⟩ := q
    rcases List.mem_cons.mp hp with h1 | h1
    · subst h1
      simp [assocLookup]
    · have hne : k1 ≠ p.1 := by
        intro he
        simp only [List.map_cons, List.nodup_cons] at h
        exact h.1 (by rw [he]; exact List.mem_map_of_mem Prod.fst h1)
      simp only [List.map_cons, List.nodup_cons] at h
      simpa [assocLookup, hne] using ih h.2 h1

/-! ## Lemmas: corpus parsing -/

theorem parseSection_isSome (book : Str) : ∃ p, parseSection book = some p := by
  unfold parseSection
  rcases hx : pySplit nlStr (pyStrip book) with _ | ⟨t, rest⟩
  · exact absurd hx (pySplit_ne_nil _ _)
  · exact ⟨_, rfl⟩

theorem filterMap_length_of_all_some {α β : Type} (f : α → Option β) (l : List α)
    (h : ∀ a ∈ l, ∃ b, f a = some b) : (l.filterMap f).length = l.length := by
  induction l with
  | nil => rfl
  | cons a l ih =>
    obtain ⟨b, hb⟩ := h a (by simp)
    rw [List.filterMap_cons, hb]
    simp only [List.length_cons]
    rw [ih fun x hx => h x (by simp [hx])]

theorem parseBooks_length (content : Str) :
    (parseBooks content).length = ((pySplit headerTok content).drop 1).length :=
  filterMap_length_of_all_some _ _ fun a _ => parseSection_isSome a

/-- Claim C3: a corpus text whose `## Title:`-delimited sections are well formed
(in particular their parsed titles are pairwise distinct, the spec's uniqueness
invariant) parses to exactly one entry per section, `listTitles` returns exactly
those titles in order, and lookup returns the stored summary of every listed
title; a corpus with at most one split segment (no header token) parses to zero
entries. -/
theorem claim_C3_parse_list_lookup (content : Str) :
    (((parseBooks content).map Prod.fst).Nodup →
      loadBooksContent content = parseBooks content ∧
      get_all_book_titles (loadBooksContent content) = (parseBooks content).map Prod.fst ∧
      (parseBooks content).length = ((pySplit headerTok content).drop 1).length ∧
      ∀ p ∈ parseBooks content,
        get_summary_by_title (loadBooksContent content) p.1 = p.2) ∧
    ((pySplit headerTok content).length ≤ 1 →
      parseBooks content = [] ∧ loadBooksContent content = []) := by
  constructor
  · intro hnd
    have hload : loadBooksContent content = parseBooks content :=
      buildDict_of_nodup hnd
    refine ⟨hload, by rw [hload]; rfl, parseBooks_length content, ?_⟩
    intro p hp
    rw [hload]
    unfold get_summary_by_title
    rw [assocLookup_of_nodup hnd hp]
  · intro hlen
    have hdrop : (pySplit headerTok content).drop 1 = [] := by
      cases hx : pySplit headerTok content with
      | nil => rfl
      | cons a l =>
        rw [hx] at hlen
        simp only [List.length_cons] at hlen
        have : l = [] := List.length_eq_zero.mp (by omega)
        simp [this]
    have hpb : parseBooks content = [] := by
      unfold parseBooks
      rw [hdrop]
      rfl
    exact ⟨hpb, by unfold loadBooksContent; rw [hpb]; rfl⟩

/-- Witness for claim C3, at a two-book corpus and at a token-free corpus. -/
theorem claim_C3_witness :
    (loadBooksContent (str "## Title: A\nsa\n## Title: B\nsb") =
        parseBooks (str "## Title: A\nsa\n## Title: B\nsb") ∧
      get_all_book_titles (loadBooksContent (str "## Title: A\nsa\n## Title: B\nsb")) =
        (parseBooks (str "## Title: A\nsa\n## Title: B\nsb")).map Prod.fst ∧
      (parseBooks (str "## Title: A\nsa\n## Title: B\nsb")).length =
        ((pySplit headerTok (str "## Title: A\nsa\n## Title: B\nsb")).drop 1).length ∧
      ∀ p ∈ parseBooks (str "## Title: A\nsa\n## Title: B\nsb"),
        get_summary_by_title (loadBooksContent (str "## Title: A\nsa\n## Title: B\nsb")) p.1 = p.2) ∧
    (parseBooks (str "no header token here") = [] ∧
      loadBooksContent (str "no header token here") = []) :=
  ⟨(claim_C3_parse_list_lookup (str "## Title: A\nsa\n## Title: B\nsb")).1 (by decide),
   (claim_C3_parse_list_lookup (str "no header token here")).2 (by decide)⟩

/-- Claim C4: lookup of a title not present does not raise; it returns the miss
message, which starts with the literal prefix `Sorry, I don't have a detailed
summary for` and names as suggestions exactly the first five titles in
insertion order (hence at most five). -/
theorem claim_C4_miss_suggestions (books : List (Str × Str)) (title : Str)
    (h : assocLookup books title = none) :
    get_summary_by_title books title =
      str "Sorry, I don't have a detailed summary for '" ++ title ++
        str "'. Please check the title spelling or ask for a different book." ++
        (if ((books.map Prod.fst).take 5).isEmpty then []
         else str " Available books include: " ++
           pyJoin (str ", ") ((books.map Prod.fst).take 5) ++ str "...") ∧
    ((books.map Prod.fst).take 5).length ≤ 5 ∧
    (∃ rest, get_summary_by_title books title =
      str "Sorry, I don't have a detailed summary for" ++ rest) := by
  have hmsg : get_summary_by_title books title = notFoundMessage books title := by
    unfold get_summary_by_title
    rw [h]
  have h1 : get_summary_by_title books title =
      str "Sorry, I don't have a detailed summary for '" ++ title ++
        str "'. Please check the title spelling or ask for a different book." ++
        (if ((books.map Prod.fst).take 5).isEmpty then []
         else str " Available books include: " ++
           pyJoin (str ", ") ((books.map Prod.fst).take 5) ++ str "...") := by
    rw [hmsg]
    rfl
  refine ⟨h1, ?_, ?_⟩
  · rw [List.length_take]
    exact min_le_left _ _
  · refine ⟨str " '" ++ title ++
      str "'. Please check the title spelling or ask for a different book." ++
      (if ((books.map Prod.fst).take 5).isEmpty then []
       else str " Available books include: " ++
         pyJoin (str ", ") ((books.map Prod.fst).take 5) ++ str "..."), ?_⟩
    rw [h1]
    have hsplit : str "Sorry, I don't have a detailed summary for '" =
        str "Sorry, I don't have a detailed summary for" ++ str " '" := by decide
    rw [hsplit]
    simp [List.append_assoc]

/-- Witness for claim C4: a one-book corpus and an absent title. -/
theorem claim_C4_witness :
    get_summary_by_title [(str "A", str "sa")] (str "Z") =
      str "Sorry, I don't have a detailed summary for '" ++ str "Z" ++
        str "'. Please check the title spelling or ask for a different book." ++
        (if (([(str "A", str "sa")].map Prod.fst).take 5).isEmpty then []
         else str " Available books include: " ++
           pyJoin (str ", ") (([(str "A", str "sa")].map Prod.fst).take 5) ++ str "...") ∧
    (([(str "A", str "sa")].map Prod.fst).take 5).length ≤ 5 ∧
    (∃ rest, get_summary_by_title [(str "A", str "sa")] (str "Z") =
      str "Sorry, I don't have a detailed summary for" ++ rest) :=
  claim_C4_miss_suggestions [(str "A", str "sa")] (str "Z") (by decide)

/-- Claim C9: lookup is total even when the corpus file is missing or unreadable
(the loader swallows the error and leaves the cache empty), and over the empty
loaded set the miss message carries no `Available books include` suffix at
all. -/
theorem claim_C9_total_no_suggestions (title : Str) :
    loadBooksFromFile none = [] ∧
    get_summary_by_title (loadBooksFromFile none) title =
      str "Sorry, I don't have a detailed summary for '" ++ title ++
        str "'. Please check the title spelling or ask for a different book." := by
  refine ⟨rfl, ?_⟩
  show notFoundMessage [] title = _
  simp [notFoundMessage]

/-! ## Lemmas: appending a record to the corpus (claim C7) -/

theorem parseSection_append_newline (x : Str) :
    parseSection (x ++ ['\n']) = parseSection x := by
  unfold parseSection
  rw [pyStrip_append_space (by decide)]

theorem filterMap_parseSection_glue (t : Str) :
    ∀ (fs : List Str), fs ≠ [] →
      List.filterMap parseSection (glue fs [['\n'], t]) =
        List.filterMap parseSection fs ++ List.filterMap parseSection [t] := by
  intro fs
  induction fs with
  | nil => intro h; exact absurd rfl h
  | cons x fs ih =>
    intro _
    cases fs with
    | nil =>
      show List.filterMap parseSection ((x ++ ['\n']) :: [t]) = _
      obtain ⟨px, hpx⟩ := parseSection_isSome x
      obtain ⟨pt, hpt⟩ := parseSection_isSome t
      rw [List.filterMap_cons, parseSection_append_newline, hpx]
      simp [List.filterMap_cons, hpx, hpt]
    | cons z zs =>
      rw [glue_cons_of_ne_nil _ (by simp)]
      obtain ⟨px, hpx⟩ := parseSection_isSome x
      rw [List.filterMap_cons, hpx, List.filterMap_cons, hpx, ih (by simp)]
      simp

theorem parseSection_record {title summary2 : Str}
    (ht_nl : ('\n' : Char) ∉ title) (ht_ne : title ≠ [])
    (ht_lt : ltrim title = title) (ht_rt : rtrim title = title)
    (hs2_ne : summary2 ≠ []) (hs2_lt : ltrim summary2 = summary2)
    (hs2_rt : rtrim summary2 = summary2) :
    parseSection (' ' :: (title ++ '\n' :: (summary2 ++ ['\n']))) =
      some (title, summary2) := by
  have hstrip : pyStrip (' ' :: (title ++ '\n' :: (summary2 ++ ['\n']))) =
      title ++ '\n' :: summary2 := by
    unfold pyStrip
    have e1 : (' ' :: (title ++ '\n' :: (summary2 ++ ['\n']))) =
        ((' ' :: title ++ '\n' :: summary2) ++ ['\n']) := by simp
    rw [e1, rtrim_append_space (by decide)]
    have e2 : (' ' :: title ++ '\n' :: summary2) =
        ((' ' :: title ++ ['\n']) ++ summary2) := by simp
    rw [e2, rtrim_append_of_fix _ hs2_ne hs2_rt]
    have e3 : ((' ' :: title ++ ['\n']) ++ summary2) =
        ' ' :: (title ++ '\n' :: summary2) := by simp
    rw [e3, ltrim_cons_space (by decide)]
    exact ltrim_append_of_fix _ ht_ne ht_lt
  have hnl : nlStr = ['\n'] := rfl
  unfold parseSection
  rw [hstrip, hnl, pySplit_single_char_cut summary2 ht_nl]
  simp [pyJoin_pySplit_single_char, pyStrip_fix ht_lt ht_rt, pyStrip_fix hs2_lt hs2_rt]

theorem headerTok_ne_nil : headerTok ≠ [] := by decide

theorem newline_not_mem_headerTok : ('\n' : Char) ∉ headerTok := by decide

theorem pySplit_appended_block (t : Str) (htok : containsSub t headerTok = false) :
    pySplit headerTok ('\n' :: (headerTok ++ t)) = [['\n'], t] := by
  rw [pySplit_cons_not_mem headerTok_ne_nil newline_not_mem_headerTok]
  rw [pySplit_match headerTok_ne_nil (isPre_append_self headerTok t)]
  rw [List.drop_left]
  rw [pySplit_of_not_containsSub htok]
  rfl

/-- The parse of the corpus text after `add_book_to_file`: the old entries are
unchanged and exactly the one appended record is added at the end. -/
theorem parseBooks_add_book (fileContent title summary : Str)
    (ht_nl : ('\n' : Char) ∉ title) (ht_ne : title ≠ [])
    (ht_lt : ltrim title = title) (ht_rt : rtrim title = title)
    (ht_tok : containsSub title headerTok = false)
    (hs_ne : summary ≠ [])
    (hs_lt : ltrim summary = summary) (hs_rt : rtrim summary = summary)
    (hs_tok : containsSub summary headerTok = false) :
    parseBooks (add_book_to_file fileContent title summary) =
      parseBooks fileContent ++
        [(title,
          if containsSub summary themesMarker then summary else summary ++ themesLine)] := by
  set summary2 := if containsSub summary themesMarker then summary else summary ++ themesLine
    with hs2def
  have hthemes_rt : rtrim themesLine = themesLine := by decide
  have hthemes_ne : themesLine ≠ [] := by decide
  have hs2_ne : summary2 ≠ [] := by
    rw [hs2def]
    split
    · exact hs_ne
    · simp [hs_ne]
  have hs2_lt : ltrim summary2 = summary2 := by
    rw [hs2def]
    split
    · exact hs_lt
    · exact ltrim_append_of_fix _ hs_ne hs_lt
  have hs2_rt : rtrim summary2 = summary2 := by
    rw [hs2def]
    split
    · exact hs_rt
    · exact rtrim_append_of_fix _ hthemes_ne hthemes_rt
  have hs2_tok : containsSub summary2 headerTok = false := by
    rw [hs2def]
    split
    · exact hs_tok
    · show containsSub (summary ++ '\n' :: str "Main themes: [Add themes here]")
        headerTok = false
      exact not_containsSub_append headerTok_ne_nil newline_not_mem_headerTok hs_tok
        (by decide)
  set t := ' ' :: (title ++ '\n' :: (summary2 ++ ['\n'])) with htdef
  have htok_t : containsSub t headerTok = false := by
    have inner1 : containsSub (summary2 ++ '\n' :: []) headerTok = false :=
      not_containsSub_append headerTok_ne_nil newline_not_mem_headerTok hs2_tok
        (not_containsSub_nil _)
    have inner2 : containsSub (title ++ '\n' :: (summary2 ++ ['\n'])) headerTok = false :=
      not_containsSub_append headerTok_ne_nil newline_not_mem_headerTok ht_tok inner1
    refine not_containsSub_cons headerTok_ne_nil ?_ inner2
    rw [show headerTok = '#' :: str "# Title:" from by decide]
    exact isPre_of_head_ne (by decide)
  have hshape : add_book_to_file fileContent title summary =
      fileContent ++ '\n' :: (headerTok ++ t) := by
    unfold add_book_to_file
    rw [← hs2def, htdef]
    rw [show str "\n## Title: " = '\n' :: (headerTok ++ [' ']) from by decide,
      show nlStr = ['\n'] from rfl]
    simp [List.append_assoc]
  have hsection : parseSection t = some (title, summary2) := by
    rw [htdef]
    exact parseSection_record ht_nl ht_ne ht_lt ht_rt hs2_ne hs2_lt hs2_rt
  have hsplit : pySplit headerTok (add_book_to_file fileContent title summary) =
      glue (pySplit headerTok fileContent) [['\n'], t] := by
    rw [hshape, pySplit_append headerTok_ne_nil newline_not_mem_headerTok,
      pySplit_appended_block t htok_t]
  unfold parseBooks
  rw [hsplit]
  rcases hX : pySplit headerTok fileContent with _ | ⟨f0, fs⟩
  · exact absurd hX (pySplit_ne_nil _ _)
  · cases fs with
    | nil =>
      show List.filterMap parseSection [t] = List.filterMap parseSection [] ++ _
      rw [List.filterMap_cons, hsection]
      rfl
    | cons f1 fs2 =>
      rw [glue_cons_of_ne_nil _ (by simp)]
      show List.filterMap parseSection (glue (f1 :: fs2) [['\n'], t]) = _
      rw [filterMap_parseSection_glue t (f1 :: fs2) (by simp)]
      have hft : List.filterMap parseSection [t] = [(title, summary2)] := by
        rw [List.filterMap_cons, hsection]
        rfl
      rw [hft]
      rfl

set_option maxRecDepth 20000 in
/-- Counterexample to claim C7 as stated: for the title `"A\nB"` (a newline
inside the title) and summary `"ZQW"`, appending to an empty corpus and
reloading yields a parse whose title is only the first line `A`, so the
subsequent lookup of the full title misses and returns a message that does not
contain the original summary text. -/
theorem claim_C7_counterexample :
    ¬ containsSub
        (get_summary_by_title
          (loadBooksContent (add_book_to_file [] (str "A\nB") (str "ZQW")))
          (str "A\nB"))
        (str "ZQW") = true := by decide

/-- Claim C7 (amended): for a well-formed record — title non-empty, free of
newlines and of the header token, with no surrounding whitespace; summary
non-empty, free of the header token, with no surrounding whitespace —
`add_book_to_file` followed by the forced reload stores the record (with the
placeholder themes line appended exactly when the `Main themes:` marker is
absent), and the subsequent lookup of the title returns a summary that contains
the original summary text. -/
theorem claim_C7_append_reload_lookup (fileContent title summary : Str)
    (ht_nl : ('\n' : Char) ∉ title) (ht_ne : title ≠ [])
    (ht_lt : ltrim title = title) (ht_rt : rtrim title = title)
    (ht_tok : containsSub title headerTok = false)
    (hs_ne : summary ≠ [])
    (hs_lt : ltrim summary = summary) (hs_rt : rtrim summary = summary)
    (hs_tok : containsSub summary headerTok = false) :
    assocLookup (loadBooksContent (add_book_to_file fileContent title summary)) title =
      some (if containsSub summary themesMarker then summary else summary ++ themesLine) ∧
    containsSub
      (get_summary_by_title
        (loadBooksContent (add_book_to_file fileContent title summary)) title)
      summary = true := by
  have hpb := parseBooks_add_book fileContent title summary ht_nl ht_ne ht_lt ht_rt
    ht_tok hs_ne hs_lt hs_rt hs_tok
  set summary2 := if containsSub summary themesMarker then summary else summary ++ themesLine
    with hs2def
  have hlook : assocLookup
      (loadBooksContent (add_book_to_file fileContent title summary)) title =
      some summary2 := by
    unfold loadBooksContent
    rw [hpb]
    unfold buildDict
    rw [List.foldl_append]
    show assocLookup (dictInsert
      (buildDict (parseBooks fileContent)) title summary2) title = some summary2
    exact assocLookup_dictInsert _ _ _
  refine ⟨hlook, ?_⟩
  have hget : get_summary_by_title
      (loadBooksContent (add_book_to_file fileContent title summary)) title = summary2 := by
    unfold get_summary_by_title
    rw [hlook]
  by_cases hm : containsSub summary themesMarker = true
  · rw [hget, hs2def, if_pos hm]
    have h2 := containsSub_append_self summary [] hs_ne
    rwa [List.append_nil] at h2
  · rw [hget, hs2def, if_neg hm]
    exact containsSub_append_self summary themesLine hs_ne

/-- Witness for the amended claim C7: a one-book corpus, a fresh well-formed
title and a summary without the themes marker. -/
theorem claim_C7_witness :
    assocLookup
        (loadBooksContent
          (add_book_to_file (str "## Title: A\nsa") (str "New Book") (str "ZQW")))
        (str "New Book") =
      some (if containsSub (str "ZQW") themesMarker then str "ZQW"
            else str "ZQW" ++ themesLine) ∧
    containsSub
      (get_summary_by_title
        (loadBooksContent
          (add_book_to_file (str "## Title: A\nsa") (str "New Book") (str "ZQW")))
        (str "New Book"))
      (str "ZQW") = true :=
  claim_C7_append_reload_lookup (str "## Title: A\nsa") (str "New Book") (str "ZQW")
    (by decide) (by decide) (by decide) (by decide) (by decide)
    (by decide) (by decide) (by decide) (by decide)

/-! ## Claims on the vector store and the content filter -/

/-- Claim C5: populating an index that already holds at least one document is a
no-op — the collection is returned unchanged, zero embedding calls are made and
no error is raised; in particular a second `populate` right after one that
produced a non-empty collection makes zero additional embedding calls. -/
theorem claim_C5_populate_skip (embed : Str → Except Str (List Rat))
    (fileContent : Option Str) :
    (∀ collection : List VectorEntry, collection ≠ [] →
      populate_database embed fileContent collection = (.ok collection, 0)) ∧
    (∀ (col2 : List VectorEntry) (n : Nat),
      populate_database embed fileContent [] = (.ok col2, n) → col2 ≠ [] →
      populate_database embed fileContent col2 = (.ok col2, 0)) := by
  have h1 : ∀ collection : List VectorEntry, collection ≠ [] →
      populate_database embed fileContent collection = (.ok collection, 0) := by
    intro col hcol
    unfold populate_database
    cases col with
    | nil => exact absurd rfl hcol
    | cons v vs => simp
  exact ⟨h1, fun col2 n _ h2 => h1 col2 h2⟩

/-- Witness for claim C5: a populated one-document collection is returned
unchanged with zero embedding calls, also when reached by a first `populate`
from the empty collection. -/
theorem claim_C5_witness :
    populate_database (fun _ => .ok [1]) (some (str "## Title: A\nsa"))
        [populatedEntry] = (.ok [populatedEntry], 0) ∧
    populate_database (fun _ => .ok [1]) (some (str "## Title: A\nsa"))
        [populatedEntry] = (.ok [populatedEntry], 0) :=
  ⟨(claim_C5_populate_skip (fun _ => .ok [1]) (some (str "## Title: A\nsa"))).1
      [populatedEntry] (by simp),
   (claim_C5_populate_skip (fun _ => .ok [1]) (some (str "## Title: A\nsa"))).2
      [populatedEntry] 1 rfl (by simp)⟩

/-- Claim C6: when the moderation classifier raises, `classify` returns `false`
(fail-open) after exactly the one classifier call and never propagates; a
classifier that raises on every call makes `classify` constantly `false`. -/
theorem claim_C6_fail_open :
    (∀ (b : Backend) (text : Str) (c : Counts) (e : Str),
      b.moderation text = .error e →
      contains_inappropriate_content b text c =
        (false, { c with moderationCalls := c.moderationCalls + 1 })) ∧
    (∀ b : Backend, (∀ t, ∃ e, b.moderation t = .error e) →
      ∀ (text : Str) (c : Counts),
        (contains_inappropriate_content b text c).1 = false) := by
  have h1 : ∀ (b : Backend) (text : Str) (c : Counts) (e : Str),
      b.moderation text = .error e →
      contains_inappropriate_content b text c =
        (false, { c with moderationCalls := c.moderationCalls + 1 }) := by
    intro b text c e he
    unfold contains_inappropriate_content
    rw [he]
  refine ⟨h1, ?_⟩
  intro b hb text c
  obtain ⟨e, he⟩ := hb text
  rw [h1 b text c e he]

/-- Witness for claim C6: a backend whose classifier raises on every call. -/
theorem claim_C6_witness :
    contains_inappropriate_content
        (mkBackend (fun _ => .error (str "boom")) (fun _ => .ok ⟨none, []⟩))
        (str "hello") {} = (false, { moderationCalls := 1 }) ∧
    (contains_inappropriate_content
        (mkBackend (fun _ => .error (str "boom")) (fun _ => .ok ⟨none, []⟩))
        (str "anything") {}).1 = false :=
  ⟨claim_C6_fail_open.1 _ (str "hello") {} (str "boom") rfl,
   claim_C6_fail_open.2 _ (fun _ => ⟨str "boom", rfl⟩) (str "anything") {}⟩

/-! ## Claims on the chat pipeline -/

theorem getD_mem_of_lt {α : Type} {l : List α} {i : Nat} (d : α) (h : i < l.length) :
    l.getD i d ∈ l := by
  induction l generalizing i with
  | nil => simp at h
  | cons a l ih =>
    cases i with
    | zero => exact List.mem_cons_self _ _
    | succ n =>
      have hstep : List.getD (a :: l) (n + 1) d = List.getD l n d := rfl
      rw [hstep]
      exact List.mem_cons_of_mem _ (ih (by simpa using h))

theorem get_polite_response_mem (b : Backend) :
    get_polite_response b ∈ polite_responses := by
  unfold get_polite_response
  apply getD_mem_of_lt
  apply Nat.mod_lt
  simp [polite_responses]

/-- Claim C1: a flagged message short-circuits the pipeline: `success = true`,
`filtered = true`, empty `functionCalls` and `searchResults`, the message one of
the five fixed polite redirect strings, and zero embedding, index-query and
chat-completion calls (only the one moderation call). -/
theorem claim_C1_flagged_short_circuit (b : Backend) (books : List (Str × Str))
    (msg : Str) (hist : List Message) (hflag : b.moderation msg = .ok true) :
    chat b books msg hist =
      ({ success := true, message := some (get_polite_response b), filtered := true,
         function_calls := [], search_results := [] },
       { moderationCalls := 1, embedCalls := 0, queryCalls := 0,
         completionCalls := 0 }) ∧
    get_polite_response b ∈ polite_responses := by
  refine ⟨?_, get_polite_response_mem b⟩
  unfold chat chatBody filter_message contains_inappropriate_content
  simp [hflag]

/-- Witness for claim C1: a backend whose moderation flags the message. -/
theorem claim_C1_witness :
    chat (mkBackend (fun _ => .ok true) (fun _ => .ok ⟨none, []⟩)) [] (str "bad") [] =
      ({ success := true,
         message := some (get_polite_response
           (mkBackend (fun _ => .ok true) (fun _ => .ok ⟨none, []⟩))),
         filtered := true, function_calls := [], search_results := [] },
       { moderationCalls := 1, embedCalls := 0, queryCalls := 0,
         completionCalls := 0 }) ∧
    get_polite_response (mkBackend (fun _ => .ok true) (fun _ => .ok ⟨none, []⟩)) ∈
      polite_responses :=
  claim_C1_flagged_short_circuit _ [] (str "bad") [] rfl

/-- Claim C2: an exception that reaches the top of the pipeline (one raised by
the search or either chat-completion call; the moderation raise is caught
earlier and fails open) is converted into the structured failure payload with
`success = false`, `filtered = false`, the apology message carrying the detail,
empty lists and the `error` field, and is never propagated; in particular a
first-completion backend that raises produces exactly that payload. -/
theorem claim_C2_error_conversion (b : Backend) (books : List (Str × Str))
    (msg : Str) (hist : List Message) (e : Str) :
    (∀ c2 : Counts, chatBody b books msg hist {} = (.error e, c2) →
      (chat b books msg hist).1 =
        { success := false,
          message := some (str "I apologize, but I encountered an error: " ++ e ++
            str ". Please try again."),
          filtered := false, function_calls := [], search_results := [],
          error := some e }) ∧
    (b.moderation msg = .ok false → (∀ ms, b.complete1 ms = .error e) →
      (chat b books msg hist).1 =
        { success := false,
          message := some (str "I apologize, but I encountered an error: " ++ e ++
            str ". Please try again."),
          filtered := false, function_calls := [], search_results := [],
          error := some e }) := by
  constructor
  · intro c2 hbody
    unfold chat
    rw [hbody]
    rfl
  · intro hmod hc1
    unfold chat chatBody filter_message contains_inappropriate_content
    simp [hmod, hc1, errorResponse]

/-- Witness for claim C2: a backend whose first chat completion raises. -/
theorem claim_C2_witness :
    ((chat (mkBackend (fun _ => .ok false) (fun _ => .error (str "boom")))
        [] (str "q") []).1 =
      { success := false,
        message := some (str "I apologize, but I encountered an error: " ++
          str "boom" ++ str ". Please try again."),
        filtered := false, function_calls := [], search_results := [],
        error := some (str "boom") }) ∧
    ((chat (mkBackend (fun _ => .ok false) (fun _ => .error (str "boom")))
        [] (str "q") []).1 =
      { success := false,
        message := some (str "I apologize, but I encountered an error: " ++
          str "boom" ++ str ". Please try again."),
        filtered := false, function_calls := [], search_results := [],
        error := some (str "boom") }) :=
  ⟨(claim_C2_error_conversion _ [] (str "q") [] (str "boom")).1
      { moderationCalls := 1, embedCalls := 2, queryCalls := 2,
        completionCalls := 1 } rfl,
   (claim_C2_error_conversion _ [] (str "q") [] (str "boom")).2 rfl fun _ => rfl⟩

theorem search_books_fst (b : Backend) (query : Str) (n : Nat) (c : Counts) :
    (search_books b query n c).1 = searchHits b query n := by
  unfold search_books searchHits
  cases b.embed query with
  | error e => rfl
  | ok qe =>
    cases hq : b.queryIndex qe n with
    | error e => simp [hq]
    | ok rows => simp [hq]

theorem processToolCalls_all_ok (books : List (Str × Str)) :
    ∀ tcs : List ToolCall, (∀ tc ∈ tcs, ∃ args, tc.arguments = .ok args) →
      processToolCalls books tcs =
        .ok (tcs.map fun tc =>
              { function := tc.name, arguments := okArgs tc,
                result := executeFunctionCall books tc.name (okArgs tc) },
             tcs.map fun tc =>
              { role := Role.tool,
                content := some (executeFunctionCall books tc.name (okArgs tc)),
                tool_call_id := some tc.id }) := by
  intro tcs
  induction tcs with
  | nil => intro _; rfl
  | cons tc rest ih =>
    intro h
    obtain ⟨args, hargs⟩ := h tc (by simp)
    have hrest := ih fun x hx => h x (by simp [hx])
    have hok : okArgs tc = args := by
      unfold okArgs
      rw [hargs]
    unfold processToolCalls
    rw [hargs, hrest]
    simp [hok]

/-- The happy tool round of the pipeline: message not flagged, first completion
answers with tool calls whose arguments all decode, second completion answers;
the response succeeds unfiltered, reports one provenance record per invocation
in order, carries the second completion's text and the retrieval hits. -/
theorem chat_tool_round (b : Backend) (books : List (Str × Str)) (msg : Str)
    (hist : List Message) (a : AssistantMsg) (r : Option Str)
    (hmod : b.moderation msg = .ok false)
    (hc1 : ∀ ms, b.complete1 ms = .ok a)
    (hne : a.tool_calls ≠ [])
    (hdec : ∀ tc ∈ a.tool_calls, ∃ args, tc.arguments = .ok args)
    (hc2 : ∀ ms, b.complete2 ms = .ok r) :
    (chat b books msg hist).1 =
      { success := true, message := r, filtered := false,
        function_calls := a.tool_calls.map fun tc =>
          { function := tc.name, arguments := okArgs tc,
            result := executeFunctionCall books tc.name (okArgs tc) },
        search_results := (searchHits b msg 3).map fun h =>
          (h.title, h.similarity_score) } := by
  have hproc := processToolCalls_all_ok books a.tool_calls hdec
  have hempty : a.tool_calls.isEmpty = false := by
    cases hx : a.tool_calls with
    | nil => exact absurd hx hne
    | cons u us => rfl
  unfold chat chatBody filter_message contains_inappropriate_content
  simp [hmod, hc1, hc2, hproc, hempty, search_books_fst]

/-- Claim C8: a model-issued tool invocation whose function name is not
`get_summary_by_title` is dispatched to the literal result
`Unknown function: {name}`, which is recorded in the response's `functionCalls`;
the request is not failed — it completes with `success = true`. -/
theorem claim_C8_unknown_function (b : Backend) (books : List (Str × Str))
    (msg : Str) (hist : List Message) (a : AssistantMsg) (r : Option Str)
    (tc : ToolCall)
    (hmod : b.moderation msg = .ok false)
    (hc1 : ∀ ms, b.complete1 ms = .ok a)
    (htc : tc ∈ a.tool_calls)
    (hname : tc.name ≠ str "get_summary_by_title")
    (hdec : ∀ x ∈ a.tool_calls, ∃ args, x.arguments = .ok args)
    (hc2 : ∀ ms, b.complete2 ms = .ok r) :
    executeFunctionCall books tc.name (okArgs tc) =
      str "Unknown function: " ++ tc.name ∧
    (chat b books msg hist).1.success = true ∧
    { function := tc.name, arguments := okArgs tc,
      result := str "Unknown function: " ++ tc.name } ∈
      (chat b books msg hist).1.function_calls := by
  have hexec : executeFunctionCall books tc.name (okArgs tc) =
      str "Unknown function: " ++ tc.name := by
    unfold executeFunctionCall
    rw [if_neg hname]
  have hmain := chat_tool_round b books msg hist a r hmod hc1
    (List.ne_nil_of_mem htc) hdec hc2
  refine ⟨hexec, ?_, ?_⟩
  · rw [hmain]
  · rw [hmain]
    show _ ∈ a.tool_calls.map _
    rw [← hexec]
    exact List.mem_map_of_mem _ htc

/-- Witness for claim C8: a single tool invocation named `mystery`. -/
theorem claim_C8_witness :
    executeFunctionCall [] (str "mystery")
        (okArgs ⟨str "t1", str "mystery", .ok []⟩) =
      str "Unknown function: " ++ str "mystery" ∧
    (chat (mkBackend (fun _ => .ok false)
        (fun _ => .ok ⟨none, [⟨str "t1", str "mystery", .ok []⟩]⟩))
        [] (str "q") []).1.success = true ∧
    { function := str "mystery",
      arguments := okArgs ⟨str "t1", str "mystery", .ok []⟩,
      result := str "Unknown function: " ++ str "mystery" } ∈
      (chat (mkBackend (fun _ => .ok false)
        (fun _ => .ok ⟨none, [⟨str "t1", str "mystery", .ok []⟩]⟩))
        [] (str "q") []).1.function_calls :=
  claim_C8_unknown_function _ [] (str "q") []
    ⟨none, [⟨str "t1", str "mystery", .ok []⟩]⟩ (some (str "done"))
    ⟨str "t1", str "mystery", .ok []⟩ rfl (fun _ => rfl)
    (List.mem_cons_self _ _) (by decide)
    (by
      intro x hx
      rw [List.mem_singleton] at hx
      subst hx
      exact ⟨[], rfl⟩)
    (fun _ => rfl)

/-- Claim C10: a `get_summary_by_title` invocation whose decoded arguments lack
the `title` key is not a decode failure: the lookup runs with the empty-string
title, its result is the miss message for the empty title (over a corpus not
listing an empty title), the record lands in `functionCalls`, and the request
completes with `success = true`. -/
theorem claim_C10_missing_title_key (b : Backend) (books : List (Str × Str))
    (msg : Str) (hist : List Message) (a : AssistantMsg) (r : Option Str)
    (tc : ToolCall) (args : List (Str × Str))
    (hmod : b.moderation msg = .ok false)
    (hc1 : ∀ ms, b.complete1 ms = .ok a)
    (htc : tc ∈ a.tool_calls)
    (hname : tc.name = str "get_summary_by_title")
    (hdecode : tc.arguments = .ok args)
    (hmisskey : assocLookup args (str "title") = none)
    (hdec : ∀ x ∈ a.tool_calls, ∃ ar, x.arguments = .ok ar)
    (hc2 : ∀ ms, b.complete2 ms = .ok r)
    (hbooks : assocLookup books [] = none) :
    executeFunctionCall books tc.name args = get_summary_by_title books [] ∧
    get_summary_by_title books [] = notFoundMessage books [] ∧
    (chat b books msg hist).1.success = true ∧
    { function := tc.name, arguments := args,
      result := get_summary_by_title books [] } ∈
      (chat b books msg hist).1.function_calls := by
  have hexec : executeFunctionCall books tc.name args =
      get_summary_by_title books [] := by
    unfold executeFunctionCall
    rw [if_pos hname]
    unfold argsGetD
    rw [hmisskey]
  have hnf : get_summary_by_title books [] = notFoundMessage books [] := by
    unfold get_summary_by_title
    rw [hbooks]
  have hok : okArgs tc = args := by
    unfold okArgs
    rw [hdecode]
  have hmain := chat_tool_round b books msg hist a r hmod hc1
    (List.ne_nil_of_mem htc) hdec hc2
  refine ⟨hexec, hnf, ?_, ?_⟩
  · rw [hmain]
  · rw [hmain]
    show _ ∈ a.tool_calls.map _
    rw [← hexec, ← hok]
    exact List.mem_map_of_mem _ htc

/-- Witness for claim C10: a `get_summary_by_title` invocation whose arguments
object has no `title` key, over a one-book corpus. -/
theorem claim_C10_witness :
    executeFunctionCall [(str "A", str "sa")] (str "get_summary_by_title")
        [(str "x", str "y")] =
      get_summary_by_title [(str "A", str "sa")] [] ∧
    get_summary_by_title [(str "A", str "sa")] [] =
      notFoundMessage [(str "A", str "sa")] [] ∧
    (chat (mkBackend (fun _ => .ok false)
        (fun _ => .ok ⟨none,
          [⟨str "t1", str "get_summary_by_title", .ok [(str "x", str "y")]⟩]⟩))
        [(str "A", str "sa")] (str "q") []).1.success = true ∧
    { function := str "get_summary_by_title",
      arguments := [(str "x", str "y")],
      result := get_summary_by_title [(str "A", str "sa")] [] } ∈
      (chat (mkBackend (fun _ => .ok false)
        (fun _ => .ok ⟨none,
          [⟨str "t1", str "get_summary_by_title", .ok [(str "x", str "y")]⟩]⟩))
        [(str "A", str "sa")] (str "q") []).1.function_calls :=
  claim_C10_missing_title_key _ [(str "A", str "sa")] (str "q") []
    ⟨none, [⟨str "t1", str "get_summary_by_title", .ok [(str "x", str "y")]⟩]⟩
    (some (str "done"))
    ⟨str "t1", str "get_summary_by_title", .ok [(str "x", str "y")]⟩
    [(str "x", str "y")]
    rfl (fun _ => rfl) (List.mem_cons_self _ _) rfl rfl (by decide)
    (by
      intro x hx
      rw [List.mem_singleton] at hx
      subst hx
      exact ⟨[(str "x", str "y")], rfl⟩)
    (fun _ => rfl) (by decide)

end SmartLibrarian
